import Mathlib

/-!
Verification of `grub-core/kern/powerpc/ieee1275/platform_keystore.c`
(Platform KeyStore support for GRUB on powerpc/ieee1275).

The C source is shallowly embedded: firmware buffers are `List Nat` of
byte values, machine sizes (`grub_size_t`, 32-bit on this platform) are
`Nat` reduced modulo `2^32` where the C arithmetic can wrap, heap
allocation success is driven by an explicit oracle (`AllocOracle`), and
the process-global keystore is threaded as explicit state.  Fallible
loops carry a fuel argument; every entry point supplies fuel large
enough that fuel exhaustion never occurs on the executions the theorems
describe.
-/

namespace PlatformKeystore

/-- Modulus of `grub_size_t` arithmetic (32-bit powerpc/ieee1275). -/
def SIZE_MOD : Nat := 2 ^ 32

/-- `sizeof (grub_esl_t)`: 16-byte type GUID plus three little-endian
`grub_uint32_t` fields (`signature_list_size`, `signature_header_size`,
`signature_size`). -/
def ESL_HEADER : Nat := 28

/-- `sizeof (grub_esd_t)`: the 16-byte owner GUID that prefixes each
signature entry; the payload bytes follow it. -/
def ESD_HEADER : Nat := 16

/-- `grub_err_t` values that `platform_keystore.c` produces. -/
inductive grub_err where
  | NONE
  | OUT_OF_MEMORY
  | BUG
  | FILE_NOT_FOUND
  | READ_ERROR
  | BAD_NUMBER
  | BAD_FIRMWARE
  deriving DecidableEq, Repr

/-- `grub_le_to_cpu32` applied to four consecutive bytes of a buffer
starting at `off` (little-endian; out-of-range reads yield 0). -/
def le32 (b : List Nat) (off : Nat) : Nat :=
  b.getD off 0 + 256 * b.getD (off + 1) 0 + 65536 * b.getD (off + 2) 0 +
    16777216 * b.getD (off + 3) 0

/-- One `grub_pks_sd_t`: a GUID, an owned payload buffer (`none` models a
null `data` pointer), and `data_size`. -/
structure grub_pks_sd where
  guid : List Nat
  data : Option (List Nat)
  data_size : Nat
  deriving DecidableEq, Repr

/-- Heap-allocation oracle: `allocOk o i` tells whether the `i`-th
allocation made by the code (counted by an explicit counter threaded
through the embedding) succeeds.  Indices beyond the list succeed. -/
abbrev AllocOracle := List Bool

/-- Success of the `i`-th allocation under oracle `o`. -/
def allocOk (o : AllocOracle) (i : Nat) : Bool := o.getD i true

/-- Caller-visible outcome of `_esl_to_esd`: the returned `grub_err_t`,
the values the caller observes in `*pks_sd` and `*pks_sd_entries`, the
number of fully completed loop iterations, the value of `esl_size` when
the loop stopped, and the allocation counter after the call. -/
structure EsdResult where
  err : grub_err
  pks_sd : List grub_pks_sd
  entries : Nat
  iters : Nat
  remaining : Nat
  ctr : Nat
  deriving DecidableEq, Repr

/-- The `while (esl_size > 0)` loop body of `_esl_to_esd`.  Each
iteration performs a `grub_realloc` growing the array to `entries + 1`
slots (allocation index `ctr`) and a `grub_malloc` for the payload
(allocation index `ctr + 1`).  On realloc failure the function returns
without writing `*pks_sd` / `*pks_sd_entries`, so the caller still sees
the values from function entry (`sd0`, `e0`).  On payload-malloc failure
the grown array (whose new slot has a null `data` pointer and otherwise
uninitialized fields, modelled by `⟨[], none, 0⟩`) and the grown count
`entries + 1` are written back before returning.  `esl_size` and the
`data_size` subtraction follow `grub_size_t` (mod `2^32`) arithmetic. -/
def esdLoop (o : AllocOracle) (esl_data : List Nat) (s : Nat) (guid : List Nat)
    (sd0 : List grub_pks_sd) (e0 : Nat) :
    Nat → Nat → List grub_pks_sd → Nat → Nat → Nat → Nat → Option EsdResult
  | 0, _, _, _, _, _, _ => none
  | _ + 1, 0, sig, entries, _, ctr, iters =>
      some ⟨grub_err.NONE, sig, entries, iters, 0, ctr⟩
  | fuel + 1, esl_size + 1, sig, entries, offset, ctr, iters =>
      let esz := esl_size + 1
      let data_size := (s + SIZE_MOD - ESD_HEADER) % SIZE_MOD
      if allocOk o ctr = false then
        some ⟨grub_err.OUT_OF_MEMORY, sd0, e0, iters, esz, ctr + 1⟩
      else if allocOk o (ctr + 1) = false then
        some ⟨grub_err.OUT_OF_MEMORY, sig ++ [⟨[], none, 0⟩], entries + 1, iters, esz, ctr + 2⟩
      else
        esdLoop o esl_data s guid sd0 e0 fuel ((esz + SIZE_MOD - s) % SIZE_MOD)
          (sig ++ [⟨guid, some ((esl_data.drop (offset + ESD_HEADER)).take data_size),
                    data_size⟩])
          (entries + 1) (offset + s) (ctr + 2) (iters + 1)

/-- `_esl_to_esd`: run the entry loop over the region `esl_data` of
`esl_size` bytes, with fixed per-entry size `signature_size`, appending
to the sequence `pks_sd` of `pks_sd_entries` entries.  Fuel `esl_size + 1`
suffices for every terminating execution of the C loop (each iteration
consumes at least one byte whenever `signature_size > 0` and no wrap
occurs). -/
def _esl_to_esd (o : AllocOracle) (ctr : Nat) (esl_data : List Nat)
    (esl_size signature_size : Nat) (guid : List Nat)
    (pks_sd : List grub_pks_sd) (pks_sd_entries : Nat) : Option EsdResult :=
  esdLoop o esl_data signature_size guid pks_sd pks_sd_entries
    (esl_size + 1) esl_size pks_sd pks_sd_entries 0 ctr 0

/-- Caller-visible outcome of `esl_to_esd`: error, `*next_esl`, `*pks_sd`,
`*pks_sd_entries`, allocation counter. -/
structure EslResult where
  err : grub_err
  next_esl : Nat
  pks_sd : List grub_pks_sd
  entries : Nat
  ctr : Nat
  deriving DecidableEq, Repr

/-- `esl_to_esd`: decode the leading `grub_esl_t` of `esl_data`, validate
it against the caller-asserted remaining byte count `*next_esl`, then
delegate the entry span to `_esl_to_esd`.  The `esl == NULL` disjunct of
the first check is vacuous in the embedding (buffers are values).  On a
validation failure the outputs are returned unchanged; on the main path
`*next_esl` is set to the decoded list size before the delegate runs,
and the offset / remaining-size arithmetic wraps mod `2^32` exactly as
the `grub_size_t` arithmetic in the source. -/
def esl_to_esd (o : AllocOracle) (ctr : Nat) (esl_data : List Nat)
    (next_esl : Nat) (pks_sd : List grub_pks_sd) (pks_sd_entries : Nat) :
    Option EslResult :=
  if next_esl < ESL_HEADER then
    some ⟨grub_err.BUG, next_esl, pks_sd, pks_sd_entries, ctr⟩
  else
    let esl_size := le32 esl_data 16
    let signature_header_size := le32 esl_data 20
    let signature_size := le32 esl_data 24
    let guid := esl_data.take 16
    if esl_size < ESL_HEADER ∨ next_esl < esl_size then
      some ⟨grub_err.BUG, next_esl, pks_sd, pks_sd_entries, ctr⟩
    else
      let offset := (ESL_HEADER + signature_header_size) % SIZE_MOD
      let inner := (esl_size + SIZE_MOD - offset) % SIZE_MOD
      match _esl_to_esd o ctr (esl_data.drop offset) inner signature_size guid
          pks_sd pks_sd_entries with
      | none => none
      | some r => some ⟨r.err, esl_size, r.pks_sd, r.entries, r.ctr⟩

/-- Caller-visible outcome of `pks_sd_from_esl` / `read_sbvar_from_pks`. -/
structure SdResult where
  err : grub_err
  pks_sd : List grub_pks_sd
  entries : Nat
  ctr : Nat
  deriving DecidableEq, Repr

/-- The `do { ... } while (esl_size > 0)` driving loop of
`pks_sd_from_esl`: decode one list, and if it succeeded advance the
cursor by the consumed size `*next_esl` and loop while bytes remain. -/
def pksSdLoop (o : AllocOracle) :
    Nat → List Nat → Nat → List grub_pks_sd → Nat → Nat → Option SdResult
  | 0, _, _, _, _, _ => none
  | fuel + 1, esl_data, esl_size, sd, entries, ctr =>
      match esl_to_esd o ctr esl_data esl_size sd entries with
      | none => none
      | some r =>
          if r.err ≠ grub_err.NONE then
            some ⟨r.err, r.pks_sd, r.entries, r.ctr⟩
          else
            let esl_size' := (esl_size + SIZE_MOD - r.next_esl) % SIZE_MOD
            if esl_size' = 0 then
              some ⟨grub_err.NONE, r.pks_sd, r.entries, r.ctr⟩
            else
              pksSdLoop o fuel (esl_data.drop r.next_esl) esl_size'
                r.pks_sd r.entries r.ctr

/-- `pks_sd_from_esl`: unpack a whole secure-boot-variable buffer, list
by list.  Fuel `esl_size + 1` suffices: each successful iteration
consumes a validated list of at least `ESL_HEADER` bytes. -/
def pks_sd_from_esl (o : AllocOracle) (ctr : Nat) (esl_data : List Nat)
    (esl_size : Nat) (pks_sd : List grub_pks_sd) (pks_sd_entries : Nat) :
    Option SdResult :=
  pksSdLoop o (esl_size + 1) esl_data esl_size pks_sd pks_sd_entries ctr

/-- Modelled from the spec: the distinguished sentinel result code of
`grub_ieee1275_pks_read_sbvar` meaning "variable not found"
(`IEEE1275_CELL_NOT_FOUND`, defined in a header outside this source
excerpt; as a cell value cast to `grub_int32_t` it is negative and
distinct from every other failure code used here). -/
def IEEE1275_CELL_NOT_FOUND : Int := -1

/-- Behaviour of the firmware Platform KeyStore client for one
initialization run: return codes and buffers of `grub_ieee1275_test`
(on `PKS_MAX_OBJ_SIZE`), `grub_ieee1275_pks_max_object_size`,
`grub_ieee1275_pks_read_object` (on `SB_VERSION`), and
`grub_ieee1275_pks_read_sbvar` for db and dbx. -/
structure Firmware where
  test_rc : Int
  max_obj_rc : Int
  max_obj_size : Nat
  sbversion_rc : Int
  sbversion_data : List Nat
  sbversion_len : Nat
  db_rc : Int
  db_data : List Nat
  db_size : Nat
  dbx_rc : Int
  dbx_data : List Nat
  dbx_size : Nat
  deriving DecidableEq, Repr

/-- `read_sbversion_from_pks`: allocate the read buffer (one allocation),
call `grub_ieee1275_pks_read_object` for `SB_VERSION`, and validate that
the returned length is exactly 1 and the byte is `< 2`.  Returns the
`grub_err_t`, the buffer the caller received in `*out` (`none` when the
allocation failed), and the allocation counter after the call. -/
def read_sbversion_from_pks (o : AllocOracle) (ctr : Nat) (fw : Firmware) :
    grub_err × Option (List Nat) × Nat :=
  if allocOk o ctr = false then
    (grub_err.OUT_OF_MEMORY, none, ctr + 1)
  else if fw.sbversion_rc < 0 then
    (grub_err.READ_ERROR, some fw.sbversion_data, ctr + 1)
  else if fw.sbversion_len ≠ 1 ∨ 2 ≤ fw.sbversion_data.getD 0 0 then
    (grub_err.BAD_NUMBER, some fw.sbversion_data, ctr + 1)
  else
    (grub_err.NONE, some fw.sbversion_data, ctr + 1)

/-- `is_pks_present`: probe the `pks-max-object-size` interface, query
the maximum object size, read and validate `SB_VERSION`, and return
`true` exactly when the version byte equals 1.  The second component is
the last `grub_err_t` reported via `grub_error` (`NONE` when no error
was reported); the third is the allocation counter after the call. -/
def is_pks_present (o : AllocOracle) (ctr : Nat) (fw : Firmware) :
    Bool × grub_err × Nat :=
  if fw.test_rc < 0 then
    (false, grub_err.BAD_FIRMWARE, ctr)
  else if fw.max_obj_rc < 0 then
    (false, grub_err.BAD_NUMBER, ctr)
  else
    match read_sbversion_from_pks o ctr fw with
    | (e, _, ctr') =>
        if e ≠ grub_err.NONE then (false, e, ctr')
        else (fw.sbversion_data.getD 0 0 == 1, grub_err.NONE, ctr')

/-- `read_sbvar_from_pks`: allocate the request buffer (one allocation,
always freed before returning), call `grub_ieee1275_pks_read_sbvar`
described by `(rc, data, data_size)`, classify not-found and transport
failures, and unpack a non-empty result via `pks_sd_from_esl`; an empty
result yields `GRUB_ERR_BAD_NUMBER`. -/
def read_sbvar_from_pks (o : AllocOracle) (ctr : Nat) (rc : Int)
    (data : List Nat) (data_size : Nat) (pks_sd : List grub_pks_sd)
    (pks_sd_entries : Nat) : Option SdResult :=
  if allocOk o ctr = false then
    some ⟨grub_err.OUT_OF_MEMORY, pks_sd, pks_sd_entries, ctr + 1⟩
  else if rc = IEEE1275_CELL_NOT_FOUND then
    some ⟨grub_err.FILE_NOT_FOUND, pks_sd, pks_sd_entries, ctr + 1⟩
  else if rc < 0 then
    some ⟨grub_err.READ_ERROR, pks_sd, pks_sd_entries, ctr + 1⟩
  else if 0 < data_size then
    pks_sd_from_esl o (ctr + 1) data data_size pks_sd pks_sd_entries
  else
    some ⟨grub_err.BAD_NUMBER, pks_sd, pks_sd_entries, ctr + 1⟩

/-- `grub_pks_t`: the process-wide keystore.  `db`/`dbx` model the entry
arrays (the empty list models a null array pointer). -/
structure grub_pks where
  db : List grub_pks_sd
  dbx : List grub_pks_sd
  db_entries : Nat
  dbx_entries : Nat
  use_static_keys : Bool
  deriving DecidableEq, Repr

/-- Static initializer of `pks_keystore`: null arrays, zero counts,
`use_static_keys = false`; also the value `grub_memset (…, 0, …)`
produces. -/
def pks_keystore_init_value : grub_pks := ⟨[], [], 0, 0, false⟩

/-- What one `grub_pks_tmp_free` call hands to `grub_free`: the non-null
payload buffers among the first `db_entries` / `dbx_entries` entry slots
(`grub_free (NULL)` is a no-op, so slots whose `data` is null contribute
nothing), and the number of non-null entry arrays freed. -/
structure FreeTrace where
  payloads : List (List Nat)
  arrays : Nat
  deriving DecidableEq, Repr

/-- `grub_pks_tmp_free`: free the payload buffer of each counted db and
dbx entry, free both entry arrays, and zero the whole structure.
Returns the reset keystore together with the trace of what was actually
freed. -/
def grub_pks_tmp_free (ks : grub_pks) : grub_pks × FreeTrace :=
  (pks_keystore_init_value,
   ⟨((ks.db.take ks.db_entries).filterMap (fun e => e.data)) ++
      ((ks.dbx.take ks.dbx_entries).filterMap (fun e => e.data)),
    (if ks.db = [] then 0 else 1) + (if ks.dbx = [] then 0 else 1)⟩)

/-- The process-global state: the keystore singleton `pks_keystore` and
the key-management-mode flag `pks_use_keystore`. -/
structure PksState where
  pks_keystore : grub_pks
  pks_use_keystore : Bool
  deriving DecidableEq, Repr

/-- Both globals at process start. -/
def initialState : PksState := ⟨pks_keystore_init_value, false⟩

/-- `grub_pks_get_keystore`: a reference to the keystore when dynamic
key management is enabled, the null pointer (`none`) otherwise. -/
def grub_pks_get_keystore (st : PksState) : Option grub_pks :=
  if st.pks_use_keystore = true then some st.pks_keystore else none

/-- `grub_pks_keystore_init`: probe the key-management mode; when
enabled, load db (mapping not-found / empty to success while setting
`use_static_keys`), then dbx (mapping not-found / empty to success), and
on any remaining error tear the keystore down with
`grub_pks_tmp_free`.  `pks_use_keystore` is assigned `true`
unconditionally at the end of this path, exactly as in the source.
Returns the final state and the teardown's free trace (empty when no
teardown ran); `none` only on fuel exhaustion of an inner loop. -/
def grub_pks_keystore_init (o : AllocOracle) (fw : Firmware)
    (st : PksState) : Option (PksState × FreeTrace) :=
  match is_pks_present o 0 fw with
  | (false, _, _) => some (st, ⟨[], 0⟩)
  | (true, _, ctr) =>
      match read_sbvar_from_pks o ctr fw.db_rc fw.db_data fw.db_size
          st.pks_keystore.db st.pks_keystore.db_entries with
      | none => none
      | some r1 =>
          let ks1 : grub_pks :=
            { st.pks_keystore with db := r1.pks_sd, db_entries := r1.entries }
          let fallback : Bool :=
            r1.err = grub_err.FILE_NOT_FOUND ∨ r1.err = grub_err.BAD_NUMBER
          let rc1 : grub_err := if fallback then grub_err.NONE else r1.err
          let ks2 : grub_pks :=
            if fallback then { ks1 with use_static_keys := true } else ks1
          if rc1 = grub_err.NONE then
            match read_sbvar_from_pks o r1.ctr fw.dbx_rc fw.dbx_data
                fw.dbx_size ks2.dbx ks2.dbx_entries with
            | none => none
            | some r2 =>
                let ks3 : grub_pks :=
                  { ks2 with dbx := r2.pks_sd, dbx_entries := r2.entries }
                let rc2 : grub_err :=
                  if r2.err = grub_err.FILE_NOT_FOUND ∨
                      r2.err = grub_err.BAD_NUMBER then grub_err.NONE
                  else r2.err
                if rc2 = grub_err.NONE then
                  some (⟨ks3, true⟩, ⟨[], 0⟩)
                else
                  let p := grub_pks_tmp_free ks3
                  some (⟨p.1, true⟩, p.2)
          else
            let p := grub_pks_tmp_free ks2
            some (⟨p.1, true⟩, p.2)

/-! Concrete sample data used by witnesses and counterexamples. -/

/-- Sample 16-byte type GUID. -/
def sampleGuid : List Nat := List.replicate 16 9

/-- Sample entry region: two 17-byte entries (16-byte owner GUID plus a
one-byte payload each). -/
def sampleBody : List Nat :=
  (List.replicate 16 1 ++ [111]) ++ (List.replicate 16 2 ++ [222])

/-- Sample well-formed signature list: header (list size 62, header size
0, entry size 17) followed by `sampleBody`. -/
def sampleEsl : List Nat :=
  sampleGuid ++ [62, 0, 0, 0] ++ [0, 0, 0, 0] ++ [17, 0, 0, 0] ++ sampleBody

/-- Sample firmware: PKS present, `SB_VERSION = 1`, db and dbx both
holding `sampleEsl`. -/
def sampleFw : Firmware :=
  ⟨0, 0, 100, 0, [1], 1, 0, sampleEsl, 62, 0, sampleEsl, 62⟩

/-- Sample firmware whose db read reports not-found while dbx holds
`sampleEsl`. -/
def sampleFwNoDb : Firmware :=
  ⟨0, 0, 100, 0, [1], 1, -1, [], 0, 0, sampleEsl, 62⟩

/-! Closed form of the entry loop on well-formed input. -/

/-- The entries the `_esl_to_esd` loop appends for `n` consecutive
fixed-size entries starting at byte offset `off` of the region `d`: each
carries the supplied GUID, a copy of the payload bytes after the 16-byte
entry header, and the payload size `s - ESD_HEADER` (written with the
same wrapping subtraction the loop computes). -/
def esdEntries (d : List Nat) : Nat → Nat → Nat → List Nat → List grub_pks_sd
  | _, 0, _, _ => []
  | off, n + 1, s, guid =>
      ⟨guid, some ((d.drop (off + ESD_HEADER)).take
          ((s + SIZE_MOD - ESD_HEADER) % SIZE_MOD)),
        (s + SIZE_MOD - ESD_HEADER) % SIZE_MOD⟩ ::
        esdEntries d (off + s) n s guid

/-! Concatenated-list (variable unpacking) machinery for the driving
loop of `pks_sd_from_esl`. -/

/-- Number of fixed-size entries a self-describing list segment holds:
its length minus the list header and the announced header span, divided
by the per-entry size. -/
def segEntryCount (seg : List Nat) : Nat :=
  (seg.length - (ESL_HEADER + le32 seg 20)) / le32 seg 24

/-- The entries one well-formed segment contributes: `esdEntries` over
its entry span, tagged with its type GUID. -/
def segEntries (seg : List Nat) : List grub_pks_sd :=
  esdEntries (seg.drop (ESL_HEADER + le32 seg 20)) 0 (segEntryCount seg)
    (le32 seg 24) (seg.take 16)

/-- A signature-list segment that exactly self-describes its extent: at
least a bare header, size fields within `grub_uint32_t` range, declared
list size equal to its own length, per-entry size larger than the entry
header, header span within bounds, and an entry region that is an exact
multiple of the per-entry size. -/
def eslSegWF (seg : List Nat) : Prop :=
  ESL_HEADER ≤ seg.length ∧ seg.length < SIZE_MOD ∧
  le32 seg 16 = seg.length ∧
  ESD_HEADER < le32 seg 24 ∧ le32 seg 24 < SIZE_MOD ∧
  ESL_HEADER + le32 seg 20 ≤ seg.length ∧
  le32 seg 24 ∣ (seg.length - (ESL_HEADER + le32 seg 20))

instance (seg : List Nat) : Decidable (eslSegWF seg) := by
  unfold eslSegWF
  infer_instance

/-! Helper lemmas about the mode probe. -/

/-- `read_sbversion_from_pks` succeeds when the buffer allocation works,
the firmware read returns a nonnegative code, the length is 1, and the
byte is below 2. -/
lemma read_sbversion_ok (o : AllocOracle) (ctr : Nat) (fw : Firmware)
    (halloc : allocOk o ctr = true) (hrc : 0 ≤ fw.sbversion_rc)
    (hlen : fw.sbversion_len = 1) (hbyte : fw.sbversion_data.getD 0 0 < 2) :
    read_sbversion_from_pks o ctr fw =
      (grub_err.NONE, some fw.sbversion_data, ctr + 1) := by
  unfold read_sbversion_from_pks
  rw [halloc]
  rw [if_neg (by simp : ¬(true = false)), if_neg (Int.not_lt.mpr hrc),
    if_neg (by rw [hlen]; omega :
      ¬(fw.sbversion_len ≠ 1 ∨ 2 ≤ fw.sbversion_data.getD 0 0))]

/-- `read_sbversion_from_pks` reports a read error when the firmware
read fails. -/
lemma read_sbversion_readfail (o : AllocOracle) (ctr : Nat) (fw : Firmware)
    (halloc : allocOk o ctr = true) (hrc : fw.sbversion_rc < 0) :
    read_sbversion_from_pks o ctr fw =
      (grub_err.READ_ERROR, some fw.sbversion_data, ctr + 1) := by
  unfold read_sbversion_from_pks
  rw [halloc]
  rw [if_neg (by simp : ¬(true = false)), if_pos hrc]

/-- `read_sbversion_from_pks` reports the malformed-version error
`GRUB_ERR_BAD_NUMBER` when the returned length is not 1 or the byte is 2
or more. -/
lemma read_sbversion_malformed (o : AllocOracle) (ctr : Nat) (fw : Firmware)
    (halloc : allocOk o ctr = true) (hrc : 0 ≤ fw.sbversion_rc)
    (hmal : fw.sbversion_len ≠ 1 ∨ 2 ≤ fw.sbversion_data.getD 0 0) :
    read_sbversion_from_pks o ctr fw =
      (grub_err.BAD_NUMBER, some fw.sbversion_data, ctr + 1) := by
  unfold read_sbversion_from_pks
  rw [halloc]
  rw [if_neg (by simp : ¬(true = false)), if_neg (Int.not_lt.mpr hrc),
    if_pos hmal]

/-- `is_pks_present` with a succeeding probe and a valid version object
returns exactly the comparison of the version byte with 1. -/
lemma is_pks_present_valid (o : AllocOracle) (ctr : Nat) (fw : Firmware)
    (htest : 0 ≤ fw.test_rc) (hmax : 0 ≤ fw.max_obj_rc)
    (halloc : allocOk o ctr = true) (hrc : 0 ≤ fw.sbversion_rc)
    (hlen : fw.sbversion_len = 1) (hbyte : fw.sbversion_data.getD 0 0 < 2) :
    is_pks_present o ctr fw =
      ((fw.sbversion_data.getD 0 0 == 1), grub_err.NONE, ctr + 1) := by
  unfold is_pks_present
  rw [if_neg (Int.not_lt.mpr htest), if_neg (Int.not_lt.mpr hmax),
    read_sbversion_ok o ctr fw halloc hrc hlen hbyte]
  rfl

/-- `is_pks_present` with a succeeding probe propagates a version-read
error as "disabled". -/
lemma is_pks_present_err (o : AllocOracle) (ctr : Nat) (fw : Firmware)
    (htest : 0 ≤ fw.test_rc) (hmax : 0 ≤ fw.max_obj_rc) :
    ∀ x, read_sbversion_from_pks o ctr fw = x → x.1 ≠ grub_err.NONE →
      is_pks_present o ctr fw = (false, x.1, x.2.2) := by
  rintro ⟨e, d, c⟩ hx he
  unfold is_pks_present
  rw [if_neg (Int.not_lt.mpr htest), if_neg (Int.not_lt.mpr hmax), hx]
  simp only []
  rw [if_pos he]

/-- `is_pks_present` returns `true` (with no error reported) when the
probe steps succeed and the version object is the single byte 1. -/
lemma is_pks_present_version1 (o : AllocOracle) (ctr : Nat) (fw : Firmware)
    (htest : 0 ≤ fw.test_rc) (hmax : 0 ≤ fw.max_obj_rc)
    (halloc : allocOk o ctr = true) (hrc : 0 ≤ fw.sbversion_rc)
    (hlen : fw.sbversion_len = 1) (hbyte : fw.sbversion_data.getD 0 0 = 1) :
    is_pks_present o ctr fw = (true, grub_err.NONE, ctr + 1) := by
  rw [is_pks_present_valid o ctr fw htest hmax halloc hrc hlen (by omega),
    hbyte]
  rfl

/-! Claim theorems (part 1). -/

/-- C8: `grub_pks_tmp_free` is idempotent: one call resets the keystore
structure to its empty initial value, and a second consecutive call
returns the same reset value while freeing nothing (no payload buffers,
no entry arrays). -/
theorem C8_release_idempotent (ks : grub_pks) :
    (grub_pks_tmp_free ks).1 = pks_keystore_init_value ∧
    grub_pks_tmp_free (grub_pks_tmp_free ks).1 =
      (pks_keystore_init_value, ⟨[], 0⟩) := by
  exact ⟨rfl, rfl⟩

/-- C5: `esl_to_esd` reports `GRUB_ERR_BUG` (the structural,
malformed-format error) and leaves `*next_esl`, the output sequence and
the entry count unchanged whenever the caller-asserted remaining length
is below a bare `grub_esl_t`, the decoded list size is below a bare
`grub_esl_t`, or the decoded list size exceeds the caller-asserted
remaining length. -/
theorem C5_malformed_esl_rejected (o : AllocOracle) (ctr : Nat)
    (esl_data : List Nat) (next_esl : Nat) (sd : List grub_pks_sd) (e : Nat)
    (h : next_esl < ESL_HEADER ∨ le32 esl_data 16 < ESL_HEADER ∨
      next_esl < le32 esl_data 16) :
    esl_to_esd o ctr esl_data next_esl sd e =
      some ⟨grub_err.BUG, next_esl, sd, e, ctr⟩ := by
  unfold esl_to_esd
  by_cases h1 : next_esl < ESL_HEADER
  · simp [h1]
  · have h2 : le32 esl_data 16 < ESL_HEADER ∨ next_esl < le32 esl_data 16 := by
      rcases h with h | h
      · exact absurd h h1
      · exact h
    simp [h1, h2]

/-- C5 witness: a 10-byte claimed remaining length (below the 28-byte
header) is rejected with outputs untouched. -/
theorem C5_witness :
    esl_to_esd [] 0 sampleEsl 10 [] 0 = some ⟨grub_err.BUG, 10, [], 0, 0⟩ :=
  C5_malformed_esl_rejected [] 0 sampleEsl 10 [] 0 (by decide)

/-- C6: given a successful capability probe, maximum-object-size query
and buffer allocation, the mode probe enables the dynamic keystore
exactly when the version-object read succeeds with length exactly 1 and
byte value 1; a byte of 0 yields disabled with no error; a length other
than 1 or a byte of 2 or more yields disabled with the malformed-version
error `GRUB_ERR_BAD_NUMBER`. -/
theorem C6_mode_probe (o : AllocOracle) (fw : Firmware)
    (htest : 0 ≤ fw.test_rc) (hmax : 0 ≤ fw.max_obj_rc)
    (halloc : allocOk o 0 = true) :
    ((is_pks_present o 0 fw).1 = true ↔
        0 ≤ fw.sbversion_rc ∧ fw.sbversion_len = 1 ∧
          fw.sbversion_data.getD 0 0 = 1) ∧
    (0 ≤ fw.sbversion_rc → fw.sbversion_len = 1 →
        fw.sbversion_data.getD 0 0 = 0 →
        is_pks_present o 0 fw = (false, grub_err.NONE, 1)) ∧
    (0 ≤ fw.sbversion_rc →
        (fw.sbversion_len ≠ 1 ∨ 2 ≤ fw.sbversion_data.getD 0 0) →
        (is_pks_present o 0 fw).1 = false ∧
          (is_pks_present o 0 fw).2.1 = grub_err.BAD_NUMBER) := by
  refine ⟨⟨?_, ?_⟩, ?_, ?_⟩
  · intro htrue
    by_cases hrc : fw.sbversion_rc < 0
    · rw [is_pks_present_err o 0 fw htest hmax _
        (read_sbversion_readfail o 0 fw halloc hrc) (by simp)] at htrue
      simp at htrue
    · have hrc' : 0 ≤ fw.sbversion_rc := Int.not_lt.mp hrc
      by_cases hmal : fw.sbversion_len ≠ 1 ∨ 2 ≤ fw.sbversion_data.getD 0 0
      · rw [is_pks_present_err o 0 fw htest hmax _
          (read_sbversion_malformed o 0 fw halloc hrc' hmal) (by simp)] at htrue
        simp at htrue
      · push_neg at hmal
        rw [is_pks_present_valid o 0 fw htest hmax halloc hrc' hmal.1
          hmal.2] at htrue
        refine ⟨hrc', hmal.1, by simpa using htrue⟩
  · rintro ⟨hrc, hlen, hbyte⟩
    rw [is_pks_present_version1 o 0 fw htest hmax halloc hrc hlen hbyte]
  · intro hrc hlen hbyte
    rw [is_pks_present_valid o 0 fw htest hmax halloc hrc hlen (by omega),
      hbyte]
    rfl
  · intro hrc hmal
    rw [is_pks_present_err o 0 fw htest hmax _
      (read_sbversion_malformed o 0 fw halloc hrc hmal) (by simp)]
    exact ⟨rfl, rfl⟩

/-- C6 witness: instantiate the probe classification at the sample
firmware (version byte 1) with an all-success allocation oracle. -/
theorem C6_witness :
    ((is_pks_present [] 0 sampleFw).1 = true ↔
        0 ≤ sampleFw.sbversion_rc ∧ sampleFw.sbversion_len = 1 ∧
          sampleFw.sbversion_data.getD 0 0 = 1) ∧
    (0 ≤ sampleFw.sbversion_rc → sampleFw.sbversion_len = 1 →
        sampleFw.sbversion_data.getD 0 0 = 0 →
        is_pks_present [] 0 sampleFw = (false, grub_err.NONE, 1)) ∧
    (0 ≤ sampleFw.sbversion_rc →
        (sampleFw.sbversion_len ≠ 1 ∨ 2 ≤ sampleFw.sbversion_data.getD 0 0) →
        (is_pks_present [] 0 sampleFw).1 = false ∧
          (is_pks_present [] 0 sampleFw).2.1 = grub_err.BAD_NUMBER) :=
  C6_mode_probe [] sampleFw (by decide) (by decide) (by decide)

/-- C1 counterexample: with PKS present, version byte 1 and the
allow-list load failing with out-of-memory (the request-buffer
allocation, allocation index 1, fails), `grub_pks_keystore_init` leaves
the keystore fully released but still sets `pks_use_keystore`, so
`grub_pks_get_keystore` returns the (empty) keystore instead of the
claimed no-keystore indicator. -/
theorem C1_counterexample :
    (grub_pks_keystore_init [true, false] sampleFw initialState).map
        (fun p => (p.1, grub_pks_get_keystore p.1)) =
      some (⟨pks_keystore_init_value, true⟩, some pks_keystore_init_value) ∧
    (grub_pks_keystore_init [true, false] sampleFw initialState).map
        (fun p => grub_pks_get_keystore p.1) ≠ some none := by
  decide

/-- C1 (amended): if the mode probe enabled dynamic key management
(probe steps succeed, version byte 1) and the allow-list load then fails
with out-of-memory, `grub_pks_keystore_init` fully releases the keystore
(both entry sequences empty, both counts zero) — but the dynamic
keystore is NOT disabled: `pks_use_keystore` is still set, and
`grub_pks_get_keystore` returns the released (empty) keystore rather
than the no-keystore indicator. -/
theorem C1_amended_oom_releases_but_enables (o : AllocOracle)
    (fw : Firmware) (r1 : SdResult)
    (htest : 0 ≤ fw.test_rc) (hmax : 0 ≤ fw.max_obj_rc)
    (halloc : allocOk o 0 = true) (hrc : 0 ≤ fw.sbversion_rc)
    (hlen : fw.sbversion_len = 1) (hbyte : fw.sbversion_data.getD 0 0 = 1)
    (hdb : read_sbvar_from_pks o 1 fw.db_rc fw.db_data fw.db_size [] 0 =
      some r1)
    (herr : r1.err = grub_err.OUT_OF_MEMORY) :
    (grub_pks_keystore_init o fw initialState).map
        (fun p => (p.1, grub_pks_get_keystore p.1)) =
      some (⟨pks_keystore_init_value, true⟩, some pks_keystore_init_value) := by
  unfold grub_pks_keystore_init
  rw [is_pks_present_version1 o 0 fw htest hmax halloc hrc hlen hbyte]
  simp only [initialState, pks_keystore_init_value]
  rw [hdb]
  simp [herr, grub_pks_tmp_free, grub_pks_get_keystore,
    pks_keystore_init_value]

/-- C1 witness: the amended theorem instantiated at the sample firmware
with the allow-list request-buffer allocation failing. -/
theorem C1_witness :
    (grub_pks_keystore_init [true, false] sampleFw initialState).map
        (fun p => (p.1, grub_pks_get_keystore p.1)) =
      some (⟨pks_keystore_init_value, true⟩, some pks_keystore_init_value) :=
  C1_amended_oom_releases_but_enables [true, false] sampleFw
    ⟨grub_err.OUT_OF_MEMORY, [], 0, 2⟩ (by decide) (by decide) (by decide)
    (by decide) (by decide) (by decide) (by decide) (by decide)

/-- C7: if the probe succeeds with version byte 1 and the allow-list
read reports not-found (or present but empty), `grub_pks_keystore_init`
still loads the deny-list; the final state has the dynamic keystore
enabled, `use_static_keys = true`, and the deny-list entries exactly as
the deny-list load produced them. -/
theorem C7_allowlist_notfound_fallback (o : AllocOracle) (fw : Firmware)
    (r2 : SdResult)
    (htest : 0 ≤ fw.test_rc) (hmax : 0 ≤ fw.max_obj_rc)
    (halloc : allocOk o 0 = true) (hrc : 0 ≤ fw.sbversion_rc)
    (hlen : fw.sbversion_len = 1) (hbyte : fw.sbversion_data.getD 0 0 = 1)
    (halloc1 : allocOk o 1 = true)
    (hdbrc : fw.db_rc = IEEE1275_CELL_NOT_FOUND ∨
      (0 ≤ fw.db_rc ∧ fw.db_size = 0))
    (hdbx : read_sbvar_from_pks o 2 fw.dbx_rc fw.dbx_data fw.dbx_size [] 0 =
      some r2)
    (hr2 : r2.err = grub_err.NONE) :
    grub_pks_keystore_init o fw initialState =
      some (⟨⟨[], r2.pks_sd, 0, r2.entries, true⟩, true⟩, ⟨[], 0⟩) := by
  have hdb : read_sbvar_from_pks o 1 fw.db_rc fw.db_data fw.db_size [] 0 =
      some ⟨(if fw.db_rc = IEEE1275_CELL_NOT_FOUND then
          grub_err.FILE_NOT_FOUND else grub_err.BAD_NUMBER), [], 0, 2⟩ := by
    unfold read_sbvar_from_pks
    rw [halloc1]
    rcases hdbrc with h | h
    · simp [h]
    · have hne : ¬ fw.db_rc = IEEE1275_CELL_NOT_FOUND := by
        rw [IEEE1275_CELL_NOT_FOUND]
        omega
      simp [hne, Int.not_lt.mpr h.1, h.2]
  unfold grub_pks_keystore_init
  rw [is_pks_present_version1 o 0 fw htest hmax halloc hrc hlen hbyte]
  simp only [initialState, pks_keystore_init_value]
  rw [hdb]
  by_cases hnf : fw.db_rc = IEEE1275_CELL_NOT_FOUND
  · rw [if_pos hnf]
    simp [hdbx, hr2]
  · rw [if_neg hnf]
    simp [hdbx, hr2]

/-- C7 witness: the sample firmware whose db read reports not-found and
whose dbx holds the two-entry sample list. -/
theorem C7_witness :
    grub_pks_keystore_init [] sampleFwNoDb initialState =
      some (⟨⟨[], [⟨sampleGuid, some [111], 1⟩, ⟨sampleGuid, some [222], 1⟩],
        0, 2, true⟩, true⟩, ⟨[], 0⟩) :=
  C7_allowlist_notfound_fallback [] sampleFwNoDb
    ⟨grub_err.NONE, [⟨sampleGuid, some [111], 1⟩, ⟨sampleGuid, some [222], 1⟩],
      2, 7⟩
    (by decide) (by decide) (by decide) (by decide) (by decide) (by decide)
    (by decide) (by decide) (by decide) (by decide)

/-- C2 counterexample: a 34-byte entry region holding two 17-byte
entries, with the payload allocation of the second entry failing after
K = 1 entry was fully allocated: `_esl_to_esd` reports out-of-memory but
writes entry count 2 (= K + 1, counting the slot whose payload
allocation failed), not the claimed K = 1. -/
theorem C2_counterexample :
    ((_esl_to_esd [true, true, true, false] 0 sampleBody 34 17 sampleGuid
        [] 0).map (fun r => (r.err, r.entries)) =
      some (grub_err.OUT_OF_MEMORY, 2)) ∧
    ((_esl_to_esd [true, true, true, false] 0 sampleBody 34 17 sampleGuid
        [] 0).map (fun r => r.entries) ≠ some 1) := by
  decide

/-- `esdEntries` describes exactly `n` entries. -/
lemma esdEntries_length (d : List Nat) (off n s : Nat) (guid : List Nat) :
    (esdEntries d off n s guid).length = n := by
  induction n generalizing off with
  | zero => rfl
  | succ m ih => simp [esdEntries, ih]

/-- Every `esdEntries` entry owns an allocated (non-null) payload
buffer. -/
lemma esdEntries_filterMap_data (d : List Nat) (off n s : Nat)
    (guid : List Nat) :
    ((esdEntries d off n s guid).filterMap (fun e => e.data)).length = n := by
  induction n generalizing off with
  | zero => rfl
  | succ m ih => simp [esdEntries, ih]

/-- One successful iteration of the entry loop. -/
lemma esdLoop_step (o : AllocOracle) (d : List Nat) (s : Nat)
    (guid : List Nat) (sd0 : List grub_pks_sd) (e0 : Nat)
    (f esz : Nat) (sig : List grub_pks_sd) (entries offset ctr iters : Nat)
    (h1 : allocOk o ctr = true) (h2 : allocOk o (ctr + 1) = true) :
    esdLoop o d s guid sd0 e0 (f + 1) (esz + 1) sig entries offset ctr iters =
      esdLoop o d s guid sd0 e0 f ((esz + 1 + SIZE_MOD - s) % SIZE_MOD)
        (sig ++ [⟨guid, some ((d.drop (offset + ESD_HEADER)).take
            ((s + SIZE_MOD - ESD_HEADER) % SIZE_MOD)),
          (s + SIZE_MOD - ESD_HEADER) % SIZE_MOD⟩])
        (entries + 1) (offset + s) (ctr + 2) (iters + 1) := by
  simp only [esdLoop, h1, h2]
  simp

/-- One iteration whose payload allocation fails: the grown array (null
`data` in the new slot) and the grown count are written back. -/
lemma esdLoop_fail2 (o : AllocOracle) (d : List Nat) (s : Nat)
    (guid : List Nat) (sd0 : List grub_pks_sd) (e0 : Nat)
    (f esz : Nat) (sig : List grub_pks_sd) (entries offset ctr iters : Nat)
    (h1 : allocOk o ctr = true) (h2 : allocOk o (ctr + 1) = false) :
    esdLoop o d s guid sd0 e0 (f + 1) (esz + 1) sig entries offset ctr iters =
      some ⟨grub_err.OUT_OF_MEMORY, sig ++ [⟨[], none, 0⟩], entries + 1,
        iters, esz + 1, ctr + 2⟩ := by
  simp only [esdLoop, h1, h2]
  simp

/-- The entry loop on a region of exactly `n` entries with every
allocation succeeding: it runs `n` iterations, appends `esdEntries`, and
ends with zero bytes remaining. -/
lemma esdLoop_success (o : AllocOracle) (d : List Nat) (s : Nat)
    (guid : List Nat) (sd0 : List grub_pks_sd) (e0 : Nat)
    (ho : ∀ i, allocOk o i = true) (hs : 0 < s) :
    ∀ n fuel sig entries offset ctr iters, n < fuel → n * s < SIZE_MOD →
      esdLoop o d s guid sd0 e0 fuel (n * s) sig entries offset ctr iters =
        some ⟨grub_err.NONE, sig ++ esdEntries d offset n s guid,
          entries + n, iters + n, 0, ctr + 2 * n⟩ := by
  intro n
  induction n with
  | zero =>
      intro fuel sig entries offset ctr iters hfuel hM
      obtain ⟨f, rfl⟩ : ∃ f, fuel = f + 1 := ⟨fuel - 1, by omega⟩
      simp [esdLoop, esdEntries]
  | succ m ih =>
      intro fuel sig entries offset ctr iters hfuel hM
      obtain ⟨f, rfl⟩ : ∃ f, fuel = f + 1 := ⟨fuel - 1, by omega⟩
      have hs1 : 1 ≤ (m + 1) * s := by
        have := Nat.mul_le_mul_left (m + 1) hs
        omega
      obtain ⟨k, hk⟩ : ∃ k, (m + 1) * s = k + 1 := ⟨(m + 1) * s - 1, by omega⟩
      have hm' : m * s < SIZE_MOD := by
        have : m * s ≤ (m + 1) * s := Nat.mul_le_mul_right s (by omega)
        omega
      have hdec : (k + 1 + SIZE_MOD - s) % SIZE_MOD = m * s := by
        have h1 : k + 1 = m * s + s := by
          rw [← hk]
          ring
        have h2 : m * s + s + SIZE_MOD - s = m * s + SIZE_MOD := by omega
        rw [h1, h2, Nat.add_mod_right, Nat.mod_eq_of_lt hm']
      rw [hk, esdLoop_step o d s guid sd0 e0 f k sig entries offset ctr iters
        (ho ctr) (ho (ctr + 1)), hdec,
        ih f _ (entries + 1) (offset + s) (ctr + 2) (iters + 1)
          (by omega) hm']
      simp only [Option.some.injEq, EsdResult.mk.injEq]
      refine ⟨by trivial, ?_, by omega, by omega, by trivial, by omega⟩
      rw [esdEntries]
      simp

/-- The entry loop when the first `K` iterations succeed and the payload
allocation of iteration `K` fails (allocation index `ctr + 2K + 1`): it
stops with out-of-memory, having appended the `K` complete entries plus
one slot with a null payload pointer, and reports `entries + K + 1`. -/
lemma esdLoop_oom (o : AllocOracle) (d : List Nat) (s : Nat)
    (guid : List Nat) (sd0 : List grub_pks_sd) (e0 : Nat) (hs : 0 < s) :
    ∀ K n fuel sig entries offset ctr iters,
      K < n → K < fuel → n * s < SIZE_MOD →
      (∀ i, i < 2 * K + 1 → allocOk o (ctr + i) = true) →
      allocOk o (ctr + (2 * K + 1)) = false →
      esdLoop o d s guid sd0 e0 fuel (n * s) sig entries offset ctr iters =
        some ⟨grub_err.OUT_OF_MEMORY,
          (sig ++ esdEntries d offset K s guid) ++ [⟨[], none, 0⟩],
          entries + K + 1, iters + K, (n - K) * s, ctr + 2 * K + 2⟩ := by
  intro K
  induction K with
  | zero =>
      intro n fuel sig entries offset ctr iters hKn hfuel hM hok hfail
      obtain ⟨f, rfl⟩ : ∃ f, fuel = f + 1 := ⟨fuel - 1, by omega⟩
      have hs1 : 1 ≤ n * s := by
        have := Nat.mul_le_mul_right s hKn
        have h0 : 0 < n := hKn
        calc 1 ≤ s := hs
        _ = 1 * s := (Nat.one_mul s).symm
        _ ≤ n * s := Nat.mul_le_mul_right s h0
      obtain ⟨k, hk⟩ : ∃ k, n * s = k + 1 := ⟨n * s - 1, by omega⟩
      have h1 : allocOk o ctr = true := by
        have := hok 0 (by omega)
        simpa using this
      have h2 : allocOk o (ctr + 1) = false := by simpa using hfail
      rw [hk, esdLoop_fail2 o d s guid sd0 e0 f k sig entries offset ctr iters
        h1 h2]
      simp [esdEntries, hk.symm]
  | succ m ih =>
      intro n fuel sig entries offset ctr iters hKn hfuel hM hok hfail
      obtain ⟨f, rfl⟩ : ∃ f, fuel = f + 1 := ⟨fuel - 1, by omega⟩
      have hs1 : 1 ≤ n * s := by
        calc 1 ≤ s := hs
        _ = 1 * s := (Nat.one_mul s).symm
        _ ≤ n * s := Nat.mul_le_mul_right s (by omega)
      obtain ⟨k, hk⟩ : ∃ k, n * s = k + 1 := ⟨n * s - 1, by omega⟩
      have hm' : (n - 1) * s < SIZE_MOD := by
        have : (n - 1) * s ≤ n * s := Nat.mul_le_mul_right s (by omega)
        omega
      have hdec : (k + 1 + SIZE_MOD - s) % SIZE_MOD = (n - 1) * s := by
        have h1 : k + 1 = (n - 1) * s + s := by
          have hn : (n - 1) * s + s = n * s := by
            have hsucc : n - 1 + 1 = n := by omega
            calc (n - 1) * s + s = (n - 1 + 1) * s := by ring
            _ = n * s := by rw [hsucc]
          omega
        have h2 : (n - 1) * s + s + SIZE_MOD - s = (n - 1) * s + SIZE_MOD := by
          omega
        rw [h1, h2, Nat.add_mod_right, Nat.mod_eq_of_lt hm']
      have h1 : allocOk o ctr = true := by
        have := hok 0 (by omega)
        simpa using this
      have h2 : allocOk o (ctr + 1) = true := hok 1 (by omega)
      rw [hk, esdLoop_step o d s guid sd0 e0 f k sig entries offset ctr iters
        h1 h2, hdec,
        ih (n - 1) f _ (entries + 1) (offset + s) (ctr + 2) (iters + 1)
          (by omega) (by omega) hm'
          (by
            intro i hi
            have := hok (i + 2) (by omega)
            have harg : ctr + (i + 2) = ctr + 2 + i := by omega
            rw [harg] at this
            exact this)
          (by
            have := hfail
            have harg : ctr + (2 * (m + 1) + 1) = ctr + 2 + (2 * m + 1) := by
              omega
            rw [harg] at this
            exact this)]
      simp only [Option.some.injEq, EsdResult.mk.injEq]
      refine ⟨by trivial, ?_, by omega, by omega, ?_, by omega⟩
      · rw [esdEntries]
        simp
      · have hnm : n - 1 - m = n - (m + 1) := by omega
        rw [hnm]

/-- `_esl_to_esd` on a region of exactly `n` entries with every
allocation succeeding. -/
lemma _esl_to_esd_success (o : AllocOracle) (ctr : Nat) (d : List Nat)
    (n s : Nat) (guid : List Nat) (sd : List grub_pks_sd) (e : Nat)
    (ho : ∀ i, allocOk o i = true) (hs : 0 < s) (hM : n * s < SIZE_MOD) :
    _esl_to_esd o ctr d (n * s) s guid sd e =
      some ⟨grub_err.NONE, sd ++ esdEntries d 0 n s guid, e + n, n, 0,
        ctr + 2 * n⟩ := by
  have hfuel : n < n * s + 1 := by
    have : n = n * 1 := (Nat.mul_one n).symm
    have h1 : n * 1 ≤ n * s := Nat.mul_le_mul_left n hs
    omega
  have := esdLoop_success o d s guid sd e ho hs n (n * s + 1) sd e 0 ctr 0
    hfuel hM
  rw [_esl_to_esd, this]
  simp

/-- `esl_to_esd` on a buffer whose decoded header describes `n` entries
of size `s` after a header span of `h` bytes, within the caller-asserted
bounds, with every allocation succeeding. -/
lemma esl_to_esd_success (o : AllocOracle) (ctr : Nat) (d : List Nat)
    (next_esl n h s : Nat) (sd : List grub_pks_sd) (e : Nat)
    (ho : ∀ i, allocOk o i = true)
    (hsize : le32 d 16 = ESL_HEADER + h + n * s)
    (hhdr : le32 d 20 = h) (hsig : le32 d 24 = s)
    (hs : 0 < s) (hM : ESL_HEADER + h + n * s < SIZE_MOD)
    (hnext : ESL_HEADER + h + n * s ≤ next_esl) :
    esl_to_esd o ctr d next_esl sd e =
      some ⟨grub_err.NONE, ESL_HEADER + h + n * s,
        sd ++ esdEntries (d.drop (ESL_HEADER + h)) 0 n s (d.take 16),
        e + n, ctr + 2 * n⟩ := by
  unfold esl_to_esd
  rw [if_neg (by omega : ¬ next_esl < ESL_HEADER)]
  rw [hsize, hhdr, hsig]
  rw [if_neg (by omega :
    ¬ (ESL_HEADER + h + n * s < ESL_HEADER ∨
      next_esl < ESL_HEADER + h + n * s))]
  have hoff : (ESL_HEADER + h) % SIZE_MOD = ESL_HEADER + h :=
    Nat.mod_eq_of_lt (by omega)
  rw [hoff]
  have hinner : (ESL_HEADER + h + n * s + SIZE_MOD - (ESL_HEADER + h)) %
      SIZE_MOD = n * s := by
    have h1 : ESL_HEADER + h + n * s + SIZE_MOD - (ESL_HEADER + h) =
        n * s + SIZE_MOD := by omega
    rw [h1, Nat.add_mod_right, Nat.mod_eq_of_lt (by omega)]
  simp only []
  rw [hinner,
    _esl_to_esd_success o ctr (d.drop (ESL_HEADER + h)) n s (d.take 16) sd e
      ho hs (by omega)]

/-- C3: parsing one well-formed signature list (decoded list size equal
to header size 28 plus `h` header-padding bytes plus `n` entries of `s`
bytes each, with `s` larger than the 16-byte entry header, all within
the caller-asserted bounds, and every allocation succeeding) appends
exactly `n` entries — each tagged with the GUID from the list header's
type field (`d.take 16`, independent of the entries' owner fields) and
carrying a copy of its payload bytes of length `s - 16` — and returns
success, consuming exactly the declared list size. -/
theorem C3_wellformed_list_parses (o : AllocOracle) (ctr : Nat)
    (d : List Nat) (next_esl n h s : Nat) (sd : List grub_pks_sd) (e : Nat)
    (ho : ∀ i, allocOk o i = true)
    (hsize : le32 d 16 = ESL_HEADER + h + n * s)
    (hhdr : le32 d 20 = h) (hsig : le32 d 24 = s)
    (hs : ESD_HEADER < s) (hsM : s < SIZE_MOD)
    (hM : ESL_HEADER + h + n * s < SIZE_MOD)
    (hnext : ESL_HEADER + h + n * s ≤ next_esl) :
    esl_to_esd o ctr d next_esl sd e =
      some ⟨grub_err.NONE, ESL_HEADER + h + n * s,
        sd ++ esdEntries (d.drop (ESL_HEADER + h)) 0 n s (d.take 16),
        e + n, ctr + 2 * n⟩ ∧
    (esdEntries (d.drop (ESL_HEADER + h)) 0 n s (d.take 16)).length = n ∧
    ∀ en ∈ esdEntries (d.drop (ESL_HEADER + h)) 0 n s (d.take 16),
      en.guid = d.take 16 ∧ en.data_size = s - ESD_HEADER ∧
        ∃ payload, en.data = some payload := by
  have hdsz : (s + SIZE_MOD - ESD_HEADER) % SIZE_MOD = s - ESD_HEADER := by
    have h1 : s + SIZE_MOD - ESD_HEADER = (s - ESD_HEADER) + SIZE_MOD := by
      unfold ESD_HEADER at hs ⊢
      omega
    rw [h1, Nat.add_mod_right, Nat.mod_eq_of_lt (by omega)]
  refine ⟨esl_to_esd_success o ctr d next_esl n h s sd e ho hsize hhdr hsig
      (by omega) hM hnext,
    esdEntries_length (d.drop (ESL_HEADER + h)) 0 n s (d.take 16), ?_⟩
  generalize d.drop (ESL_HEADER + h) = region
  generalize d.take 16 = g
  generalize 0 = off
  clear hsize hhdr hsig hM hnext
  induction n generalizing off with
  | zero =>
      intro en hen
      simp [esdEntries] at hen
  | succ m ih =>
      intro en hen
      rw [esdEntries] at hen
      rcases List.mem_cons.mp hen with hen | hen
      · subst hen
        exact ⟨rfl, hdsz, _, rfl⟩
      · exact ih (off + s) en hen

/-- C3 witness: the sample list (two 17-byte entries, header span 0). -/
theorem C3_witness :
    (esl_to_esd [] 0 sampleEsl 62 [] 0 =
      some ⟨grub_err.NONE, ESL_HEADER + 0 + 2 * 17,
        [] ++ esdEntries (sampleEsl.drop (ESL_HEADER + 0)) 0 2 17
          (sampleEsl.take 16),
        0 + 2, 0 + 2 * 2⟩ ∧
    (esdEntries (sampleEsl.drop (ESL_HEADER + 0)) 0 2 17
      (sampleEsl.take 16)).length = 2 ∧
    ∀ en ∈ esdEntries (sampleEsl.drop (ESL_HEADER + 0)) 0 2 17
        (sampleEsl.take 16),
      en.guid = sampleEsl.take 16 ∧ en.data_size = 17 - ESD_HEADER ∧
        ∃ payload, en.data = some payload) :=
  C3_wellformed_list_parses [] 0 sampleEsl 62 2 0 17 [] 0
    (fun i => rfl) (by decide) (by decide) (by decide) (by decide)
    (by decide) (by decide) (by decide)

/-- C9: on an entry region whose length is exactly `n` times the nonzero
per-entry size `s` (and every allocation succeeding), the `_esl_to_esd`
loop terminates with success after exactly `n` iterations, ending with
the running remaining-length counter at zero. -/
theorem C9_entry_loop_terminates (o : AllocOracle) (ctr : Nat)
    (d : List Nat) (n s : Nat) (guid : List Nat) (sd : List grub_pks_sd)
    (e : Nat) (ho : ∀ i, allocOk o i = true) (hs : 0 < s)
    (hM : n * s < SIZE_MOD) :
    ∃ r, _esl_to_esd o ctr d (n * s) s guid sd e = some r ∧
      r.err = grub_err.NONE ∧ r.iters = n ∧ r.remaining = 0 :=
  ⟨_, _esl_to_esd_success o ctr d n s guid sd e ho hs hM, rfl, rfl, rfl⟩

/-- C9 witness: the 34-byte sample region of two 17-byte entries. -/
theorem C9_witness :
    ∃ r, _esl_to_esd [] 0 sampleBody (2 * 17) 17 sampleGuid [] 0 = some r ∧
      r.err = grub_err.NONE ∧ r.iters = 2 ∧ r.remaining = 0 :=
  C9_entry_loop_terminates [] 0 sampleBody 2 17 sampleGuid [] 0
    (fun i => rfl) (by decide) (by decide)

/-- `_esl_to_esd` under a payload-allocation failure at entry `K`
(allocation index `2K + 1`, all earlier allocations succeeding), on a
fresh output sequence. -/
lemma _esl_to_esd_oom (o : AllocOracle) (d : List Nat) (n s K : Nat)
    (guid : List Nat) (hs : 0 < s) (hK : K < n) (hM : n * s < SIZE_MOD)
    (hok : ∀ i, i < 2 * K + 1 → allocOk o i = true)
    (hfail : allocOk o (2 * K + 1) = false) :
    _esl_to_esd o 0 d (n * s) s guid [] 0 =
      some ⟨grub_err.OUT_OF_MEMORY,
        esdEntries d 0 K s guid ++ [⟨[], none, 0⟩],
        K + 1, K, (n - K) * s, 2 * K + 2⟩ := by
  have := esdLoop_oom o d s guid [] 0 hs K n (n * s + 1) [] 0 0 0 0 hK
    (by
      have h1 : K ≤ K * s := by
        have : K * 1 ≤ K * s := Nat.mul_le_mul_left K hs
        omega
      have h2 : K * s ≤ n * s := Nat.mul_le_mul_right s (by omega)
      omega)
    hM (by simpa using hok) (by simpa using hfail)
  rw [_esl_to_esd, this]
  simp

/-- C2 (amended): if the payload allocation of one entry fails after
`K < n` entries of a fresh list parse were fully allocated and appended,
`_esl_to_esd` returns out-of-memory and writes entry count `K + 1` — one
more than the claim's `K`, counting the slot whose payload allocation
failed — and because that slot's data pointer is null, a subsequent
`grub_pks_tmp_free` still frees exactly the `K` payload buffers that
were allocated, no more, no fewer. -/
theorem C2_amended_reported_count (o : AllocOracle) (d : List Nat)
    (n s K : Nat) (guid : List Nat) (hs : 0 < s) (hK : K < n)
    (hM : n * s < SIZE_MOD)
    (hok : ∀ i, i < 2 * K + 1 → allocOk o i = true)
    (hfail : allocOk o (2 * K + 1) = false) :
    ∃ r, _esl_to_esd o 0 d (n * s) s guid [] 0 = some r ∧
      r.err = grub_err.OUT_OF_MEMORY ∧ r.entries = K + 1 ∧
      ((grub_pks_tmp_free
        ⟨r.pks_sd, [], r.entries, 0, false⟩).2).payloads.length = K := by
  refine ⟨_, _esl_to_esd_oom o d n s K guid hs hK hM hok hfail, rfl, rfl, ?_⟩
  unfold grub_pks_tmp_free
  simp only []
  have hlen : (esdEntries d 0 K s guid ++ [(⟨[], none, 0⟩ : grub_pks_sd)]).length
      = K + 1 := by
    simp [esdEntries_length]
  rw [List.take_of_length_le (by rw [hlen])]
  simp [List.filterMap_append]
  have := esdEntries_filterMap_data d 0 K s guid
  simp at this
  omega

/-- C2 witness: sample region, `n = 2`, failure at the second entry's
payload allocation (`K = 1`): the reported count is 2 and teardown frees
exactly one payload buffer. -/
theorem C2_amended_witness :
    ∃ r, _esl_to_esd [true, true, true, false] 0 sampleBody (2 * 17) 17
        sampleGuid [] 0 = some r ∧
      r.err = grub_err.OUT_OF_MEMORY ∧ r.entries = 1 + 1 ∧
      ((grub_pks_tmp_free
        ⟨r.pks_sd, [], r.entries, 0, false⟩).2).payloads.length = 1 :=
  C2_amended_reported_count [true, true, true, false] sampleBody 2 17 1
    sampleGuid (by decide) (by decide) (by decide)
    (by decide) (by decide)

/-- C10: when an entry's payload allocation fails, the newly grown
slot's data pointer is exactly null, and teardown via
`grub_pks_tmp_free` frees exactly the payload buffers of the `K`
fully-initialized entries — never the uninitialized slot — even though
the reported count `K + 1` includes the slot with the failed payload
(`grub_free` of the null pointer is a no-op in the embedding's free
trace). -/
theorem C10_null_slot_never_freed (o : AllocOracle) (d : List Nat)
    (n s K : Nat) (guid : List Nat) (hs : 0 < s) (hK : K < n)
    (hM : n * s < SIZE_MOD)
    (hok : ∀ i, i < 2 * K + 1 → allocOk o i = true)
    (hfail : allocOk o (2 * K + 1) = false) :
    ∃ r, _esl_to_esd o 0 d (n * s) s guid [] 0 = some r ∧
      r.entries = K + 1 ∧
      (r.pks_sd.getD K ⟨[], some [], 0⟩).data = none ∧
      ((grub_pks_tmp_free ⟨r.pks_sd, [], r.entries, 0, false⟩).2).payloads =
        (esdEntries d 0 K s guid).filterMap (fun en => en.data) := by
  refine ⟨_, _esl_to_esd_oom o d n s K guid hs hK hM hok hfail, rfl, ?_, ?_⟩
  · have hlen := esdEntries_length d 0 K s guid
    rw [List.getD_eq_getElem?_getD, List.getElem?_append_right (by omega)]
    rw [hlen]
    simp
  · unfold grub_pks_tmp_free
    simp only []
    have hlen : (esdEntries d 0 K s guid ++
        [(⟨[], none, 0⟩ : grub_pks_sd)]).length = K + 1 := by
      simp [esdEntries_length]
    rw [List.take_of_length_le (by rw [hlen])]
    simp [List.filterMap_append]

/-- C10 witness: sample region, failure at the second entry's payload
allocation. -/
theorem C10_witness :
    ∃ r, _esl_to_esd [true, true, true, false] 0 sampleBody (2 * 17) 17
        sampleGuid [] 0 = some r ∧
      r.entries = 1 + 1 ∧
      (r.pks_sd.getD 1 ⟨[], some [], 0⟩).data = none ∧
      ((grub_pks_tmp_free ⟨r.pks_sd, [], r.entries, 0, false⟩).2).payloads =
        (esdEntries sampleBody 0 1 17 sampleGuid).filterMap
          (fun en => en.data) :=
  C10_null_slot_never_freed [true, true, true, false] sampleBody 2 17 1
    sampleGuid (by decide) (by decide) (by decide) (by decide) (by decide)

/-- Little-endian decoding reads only the prefix. -/
lemma le32_append (a b : List Nat) (off : Nat) (h : off + 4 ≤ a.length) :
    le32 (a ++ b) off = le32 a off := by
  unfold le32
  rw [List.getD_append a b 0 off (by omega),
    List.getD_append a b 0 (off + 1) (by omega),
    List.getD_append a b 0 (off + 2) (by omega),
    List.getD_append a b 0 (off + 3) (by omega)]

/-- `esdEntries` over a region read entirely within the prefix `a` is
unaffected by appending further bytes. -/
lemma esdEntries_append (a rest : List Nat) (off n s : Nat)
    (guid : List Nat) (h16 : ESD_HEADER ≤ s) (hsM : s < SIZE_MOD)
    (hb : off + n * s ≤ a.length) :
    esdEntries (a ++ rest) off n s guid = esdEntries a off n s guid := by
  induction n generalizing off with
  | zero => rfl
  | succ m ih =>
      have hdsz : (s + SIZE_MOD - ESD_HEADER) % SIZE_MOD = s - ESD_HEADER := by
        have h1 : s + SIZE_MOD - ESD_HEADER = (s - ESD_HEADER) + SIZE_MOD := by
          unfold ESD_HEADER at h16 ⊢
          omega
        rw [h1, Nat.add_mod_right, Nat.mod_eq_of_lt (by omega)]
      have hmul : (m + 1) * s = m * s + s := Nat.succ_mul m s
      have hs1 : off + s ≤ a.length := by omega
      rw [esdEntries, esdEntries, hdsz]
      have hdrop : (a ++ rest).drop (off + ESD_HEADER) =
          a.drop (off + ESD_HEADER) ++ rest :=
        List.drop_append_of_le_length (by unfold ESD_HEADER at h16 ⊢; omega)
      have htake : (a.drop (off + ESD_HEADER) ++ rest).take (s - ESD_HEADER) =
          (a.drop (off + ESD_HEADER)).take (s - ESD_HEADER) :=
        List.take_append_of_le_length (by
          rw [List.length_drop]
          unfold ESD_HEADER at h16 ⊢
          omega)
      rw [hdrop, htake, ih (off + s) (by omega)]

/-- The entry-region decomposition of a well-formed segment. -/
lemma segWF_decomp (seg : List Nat) (h : eslSegWF seg) :
    ESL_HEADER + le32 seg 20 + segEntryCount seg * le32 seg 24 =
      seg.length := by
  obtain ⟨hlen, hsegM, hsize, hsgt, hsMlt, hoffle, hdvd⟩ := h
  unfold segEntryCount
  rw [Nat.div_mul_cancel hdvd]
  omega

/-- `esl_to_esd` applied to a well-formed segment followed by the rest
of the buffer: it consumes exactly the segment, appending its entries. -/
lemma esl_to_esd_seg (o : AllocOracle) (ctr : Nat) (seg rest : List Nat)
    (sd : List grub_pks_sd) (e : Nat) (ho : ∀ i, allocOk o i = true)
    (hWF : eslSegWF seg) (_hM : seg.length + rest.length < SIZE_MOD) :
    esl_to_esd o ctr (seg ++ rest) (seg.length + rest.length) sd e =
      some ⟨grub_err.NONE, seg.length, sd ++ segEntries seg,
        e + segEntryCount seg, ctr + 2 * segEntryCount seg⟩ := by
  have hdecomp := segWF_decomp seg hWF
  obtain ⟨hlen, hsegM, hsize, hsgt, hsMlt, hoffle, hdvd⟩ := hWF
  have h16 : le32 (seg ++ rest) 16 = le32 seg 16 :=
    le32_append seg rest 16 (by unfold ESL_HEADER at hlen; omega)
  have h20 : le32 (seg ++ rest) 20 = le32 seg 20 :=
    le32_append seg rest 20 (by unfold ESL_HEADER at hlen; omega)
  have h24 : le32 (seg ++ rest) 24 = le32 seg 24 :=
    le32_append seg rest 24 (by unfold ESL_HEADER at hlen; omega)
  have hstep := esl_to_esd_success o ctr (seg ++ rest)
    (seg.length + rest.length) (segEntryCount seg) (le32 seg 20)
    (le32 seg 24) sd e ho
    (by rw [h16, hsize, ← hdecomp])
    (by rw [h20]) (by rw [h24])
    (by unfold ESD_HEADER at hsgt; omega)
    (by omega) (by omega)
  rw [hstep]
  have htake : (seg ++ rest).take 16 = seg.take 16 :=
    List.take_append_of_le_length (by unfold ESL_HEADER at hlen; omega)
  have hdrop : (seg ++ rest).drop (ESL_HEADER + le32 seg 20) =
      seg.drop (ESL_HEADER + le32 seg 20) ++ rest :=
    List.drop_append_of_le_length hoffle
  have hent : esdEntries (seg.drop (ESL_HEADER + le32 seg 20) ++ rest) 0
      (segEntryCount seg) (le32 seg 24) (seg.take 16) =
      esdEntries (seg.drop (ESL_HEADER + le32 seg 20)) 0
        (segEntryCount seg) (le32 seg 24) (seg.take 16) :=
    esdEntries_append _ rest 0 (segEntryCount seg) (le32 seg 24)
      (seg.take 16) (by omega) hsMlt
      (by rw [List.length_drop]; omega)
  rw [htake, hdrop, hent, hdecomp]
  rfl

/-- A list of nonempty segments is no longer than its flattening. -/
lemma length_le_flatten (segs : List (List Nat))
    (h : ∀ seg ∈ segs, 1 ≤ seg.length) :
    segs.length ≤ segs.flatten.length := by
  induction segs with
  | nil => simp
  | cons a t ih =>
      simp only [List.flatten_cons, List.length_append, List.length_cons]
      have ha := h a (List.mem_cons_self a t)
      have ht := ih (fun seg hs => h seg (List.mem_cons_of_mem a hs))
      omega

/-- The driving loop over a buffer that is the concatenation of
well-formed segments: it processes the segments in order, appending
their entries in order, and stops with success when exactly zero bytes
remain. -/
lemma pksSdLoop_segs (o : AllocOracle) (ho : ∀ i, allocOk o i = true) :
    ∀ (segs : List (List Nat)) (fuel : Nat) (sd : List grub_pks_sd)
      (e ctr : Nat),
      segs ≠ [] → segs.length ≤ fuel →
      (∀ seg ∈ segs, eslSegWF seg) → segs.flatten.length < SIZE_MOD →
      pksSdLoop o fuel segs.flatten segs.flatten.length sd e ctr =
        some ⟨grub_err.NONE, sd ++ (segs.map segEntries).flatten,
          e + (segs.map segEntryCount).sum,
          ctr + 2 * (segs.map segEntryCount).sum⟩ := by
  intro segs
  induction segs with
  | nil =>
      intro fuel sd e ctr hne
      exact absurd rfl hne
  | cons a t ih =>
      intro fuel sd e ctr hne hfuel hWF hM
      have hposf : 1 ≤ fuel := by
        have h1 : 1 ≤ (a :: t).length := by simp
        omega
      obtain ⟨f, rfl⟩ : ∃ f, fuel = f + 1 := ⟨fuel - 1, by omega⟩
      have hWFa : eslSegWF a := hWF a (List.mem_cons_self a t)
      have hMa : a.length + t.flatten.length < SIZE_MOD := by
        have hfl : (a :: t).flatten.length = a.length + t.flatten.length := by
          rw [List.flatten_cons, List.length_append]
        omega
      rw [pksSdLoop]
      rw [show (a :: t).flatten = a ++ t.flatten from List.flatten_cons]
      rw [List.length_append]
      rw [esl_to_esd_seg o ctr a t.flatten sd e ho hWFa hMa]
      simp only [ne_eq, not_true_eq_false, if_false, ite_false]
      have hrem : (a.length + t.flatten.length + SIZE_MOD - a.length) %
          SIZE_MOD = t.flatten.length := by
        have h1 : a.length + t.flatten.length + SIZE_MOD - a.length =
            t.flatten.length + SIZE_MOD := by omega
        rw [h1, Nat.add_mod_right, Nat.mod_eq_of_lt (by omega)]
      rw [hrem, List.drop_left a t.flatten]
      rcases eq_or_ne t [] with rfl | hne'
      · rw [if_pos (by simp)]
        simp [segEntries]
      · have hpos : t.flatten.length ≠ 0 := by
          rcases t with _ | ⟨b, t'⟩
          · exact absurd rfl hne'
          · have hb := hWF b (List.mem_cons_of_mem a (List.mem_cons_self b t'))
            obtain ⟨hb1, _⟩ := hb
            simp only [List.flatten_cons, List.length_append]
            unfold ESL_HEADER at hb1
            omega
        rw [if_neg hpos]
        rw [ih f (sd ++ segEntries a) (e + segEntryCount a)
          (ctr + 2 * segEntryCount a) hne' (by simp at hfuel ⊢; omega)
          (fun seg hs => hWF seg (List.mem_cons_of_mem a hs))
          (by omega)]
        simp only [Option.some.injEq, SdResult.mk.injEq, List.map_cons,
          List.flatten_cons, List.sum_cons]
        refine ⟨by trivial, ?_, by omega, by omega⟩
        simp

/-- C4: for a buffer that is the concatenation of well-formed,
self-describing signature lists (and every allocation succeeding),
`pks_sd_from_esl` appends, in order, the entries of list 1 through list
K, the driving loop advancing by each list's consumed size and stopping
with success exactly when zero unconsumed bytes remain. -/
theorem C4_concatenated_lists (o : AllocOracle) (ctr : Nat)
    (segs : List (List Nat)) (sd : List grub_pks_sd) (e : Nat)
    (ho : ∀ i, allocOk o i = true) (hne : segs ≠ [])
    (hWF : ∀ seg ∈ segs, eslSegWF seg)
    (hM : segs.flatten.length < SIZE_MOD) :
    pks_sd_from_esl o ctr segs.flatten segs.flatten.length sd e =
      some ⟨grub_err.NONE, sd ++ (segs.map segEntries).flatten,
        e + (segs.map segEntryCount).sum,
        ctr + 2 * (segs.map segEntryCount).sum⟩ := by
  have hone : ∀ seg ∈ segs, 1 ≤ seg.length := by
    intro seg hs
    have := (hWF seg hs).1
    unfold ESL_HEADER at this
    omega
  have hfl := length_le_flatten segs hone
  exact pksSdLoop_segs o ho segs (segs.flatten.length + 1) sd e ctr hne
    (by omega) hWF hM

set_option maxRecDepth 8000 in
/-- C4 witness: two concatenated copies of the sample list yield the
four entries in order. -/
theorem C4_witness :
    pks_sd_from_esl [] 0 [sampleEsl, sampleEsl].flatten
        [sampleEsl, sampleEsl].flatten.length [] 0 =
      some ⟨grub_err.NONE,
        [] ++ ([sampleEsl, sampleEsl].map segEntries).flatten,
        0 + ([sampleEsl, sampleEsl].map segEntryCount).sum,
        0 + 2 * ([sampleEsl, sampleEsl].map segEntryCount).sum⟩ :=
  C4_concatenated_lists [] 0 [sampleEsl, sampleEsl] [] 0 (fun i => rfl)
    (by decide) (by decide) (by decide)

end PlatformKeystore
